import Mathlib

/-!
Verification of the digital-legacy encryption/decryption scripts
(`src/internals/scripts/decrypt.py`, `src/internals/scripts/encrypt.py`).

The Python sources are shallowly embedded: pure fragments become Lean
functions on `String`/`List Char`, the interactive quorum-collection loop
becomes a fold over a list of submitted candidates, subprocess calls to the
external `age`/`age-keygen` tools become oracle parameters carrying the
tool's observable result (stdout, stderr, exit code), and file-system
effects become explicit state records.
-/

set_option autoImplicit false

namespace DigitalLegacy

/-! ## Character and string primitives

Python's `re` module is used in the scripts with a handful of concrete
patterns; the corresponding deterministic scanners are implemented here on
`List Char`.  `isSpaceCh` is Python's `\s` (ASCII), `Char.isDigit` is `\d`.
-/

/-- Python whitespace class over ASCII: the characters matched by the regex
class of blank characters used by the scripts' patterns. -/
def isSpaceCh (c : Char) : Bool :=
  c = ' ' || c = '\t' || c = '\n' || c = '\r' || c = '\x0b' || c = '\x0c'

/-- Value of a list of decimal digit characters, as Python `int` parses a
run matched by a digit-class pattern. -/
def digitsToNat (ds : List Char) : Nat :=
  ds.foldl (fun a c => a * 10 + (c.toNat - '0'.toNat)) 0

/-- Split a character list at newline characters, mirroring Python
`str.split` with a newline separator (an empty input yields one empty
line, a trailing newline yields a trailing empty line). -/
def splitLinesCL : List Char → List (List Char)
  | [] => [[]]
  | c :: rest =>
    if c = '\n' then [] :: splitLinesCL rest
    else
      match splitLinesCL rest with
      | [] => [[c]]
      | l :: ls => (c :: l) :: ls

/-- Test whether `needle` occurs as a contiguous run inside `hay`,
mirroring Python's `in` operator on strings. -/
def containsSub (hay needle : List Char) : Bool :=
  match hay with
  | [] => needle.isEmpty
  | _ :: rest => needle.isPrefixOf hay || containsSub rest needle

/-- String version of `containsSub`, used for the stderr-signature checks
the scripts perform on subprocess output. -/
def containsSubstr (hay needle : String) : Bool :=
  containsSub hay.data needle.data

/-- Python `str.strip()` with no argument: drop leading and trailing
whitespace. -/
def pyStrip (s : String) : String :=
  String.mk (((s.data.dropWhile isSpaceCh).reverse.dropWhile isSpaceCh).reverse)

/-- Python `str.isdigit()` restricted to ASCII: nonempty and all decimal
digits. -/
def isDigitStr (s : String) : Bool :=
  !s.data.isEmpty && s.data.all Char.isDigit

/-! ## Decrypt-side key validation (`decrypt.py`)

`test_secret_key_format` / `get_secret_key_from_file` search the file
content for a full line matching the secret-key pattern: the fixed prefix
followed by at least one uppercase letter or digit, anchored at both line
ends (`re.MULTILINE`).
-/

/-- Test whether one line is exactly a secret key: the fixed secret prefix
followed by a nonempty run of uppercase letters or digits
(`decrypt.py:test_secret_key_format`, the per-line anchored pattern). -/
def secretLineCL (l : List Char) : Bool :=
  "AGE-SECRET-KEY-".data.isPrefixOf l &&
    (let rest := l.drop 15
     !rest.isEmpty && rest.all (fun c => c.isUpper || c.isDigit))

/-- Extraction of the secret key from a candidate file's content: the first
full line matching the secret pattern, if any
(`decrypt.py:get_secret_key_from_file`, content part). -/
def getSecretKeyFromContent (content : String) : Option String :=
  ((splitLinesCL content.data).find? secretLineCL).map String.mk

/-- Content format check of `decrypt.py:test_secret_key_format`: some line
matches the anchored secret pattern. -/
def testSecretKeyFormat (content : String) : Bool :=
  ((splitLinesCL content.data).find? secretLineCL).isSome

/-- Public-identity lexical shape of `decrypt.py:test_public_key_format`:
the fixed prefix followed by a nonempty run of lowercase letters or
digits, matching the whole string (the end anchor also accepts one
trailing newline, as the regex end-of-string anchor does). -/
def testPublicKeyFormat (pk : String) : Bool :=
  let cs := if pk.data.getLast? = some '\n' then pk.data.dropLast else pk.data
  "age1".data.isPrefixOf cs &&
    (let rest := cs.drop 4
     !rest.isEmpty && rest.all (fun c => c.isLower || c.isDigit))

/-- Observable result of one external tool invocation: captured standard
output, standard error, and exit code. -/
structure ToolResult where
  stdout : String
  stderr : String
  exitCode : Int
deriving DecidableEq, Repr

/-- Failure modes of deriving a public identity from a secret
(`decrypt.py:get_public_key_from_secret`). -/
inductive DerivErr where
  | malformedSecret
  | toolError
  | badOutputShape
deriving DecidableEq, Repr

/-- Embedding of `decrypt.py:get_public_key_from_secret` as a function of
the keypair tool's observable result: the malformed-secret stderr
signatures are checked first, then a nonzero exit code, then the lexical
shape of the stripped stdout. -/
def getPublicKeyFromSecret (tr : ToolResult) : Except DerivErr String :=
  if containsSubstr tr.stderr "malformed secret key" ||
      containsSubstr tr.stderr "failed to parse" then
    .error .malformedSecret
  else if tr.exitCode = 0 then
    let pk := pyStrip tr.stdout
    if testPublicKeyFormat pk then .ok pk else .error .badOutputShape
  else
    .error .toolError

/-! ## Quorum collection state machine (`decrypt.py:run`, lines 448-522)

One candidate submission is a file path together with the content the read
produced (`none` when `read_text` raised).  The attempt ledger is the
insertion-ordered dictionary `attempted_keys`; `key_secrets` and
`valid_key_count` are the other two loop state variables.
-/

/-- One candidate key-file submission: the chosen path and the content the
read produced (`none` models a read failure). -/
structure Candidate where
  path : String
  content : Option String
deriving DecidableEq, Repr

/-- Mutable state of the collection loop in `decrypt.py:run`: the attempt
ledger `attempted_keys` (insertion order preserved, value `true` means
accepted), the collected `key_secrets`, and `valid_key_count`. -/
structure QuorumState where
  attemptedKeys : List (String × Bool)
  keySecrets : List String
  validKeyCount : Nat
deriving DecidableEq, Repr

/-- Loop state at the start of collection: every container empty. -/
def initialQuorumState : QuorumState := ⟨[], [], 0⟩

/-- Dictionary lookup in the attempt ledger
(`decrypt.py:test_key_path_already_attempted`). -/
def lookupAttempt : List (String × Bool) → String → Option Bool
  | [], _ => none
  | (p, b) :: rest, q => if p = q then some b else lookupAttempt rest q

/-- Content-dependent failure modes of one candidate, in pipeline order:
read failure, format failure, derivation failure, membership failure. -/
inductive StepFailure where
  | readFailed
  | invalidFormat
  | derivationFailed (e : DerivErr)
  | notAuthorized
deriving DecidableEq, Repr

/-- Outcome of submitting one candidate to the loop body. -/
inductive StepResult where
  | alreadyJudged (prior : Bool)
  | rejected (f : StepFailure)
  | accepted (secret : String)
deriving DecidableEq, Repr

/-- Post-duplicate-check validation pipeline of the loop body of
`decrypt.py:run`: extract the secret from the content (read and format
errors are raised by `get_secret_key_from_file` and handled identically),
derive the public key via the tool oracle, then check membership in the
session's authorized key list (`test_key_usage_for_file`). -/
def evaluateCandidate (valid : List String) (tool : String → ToolResult) :
    Option String → Except StepFailure String
  | none => .error .readFailed
  | some content =>
    match getSecretKeyFromContent content with
    | none => .error .invalidFormat
    | some secret =>
      match getPublicKeyFromSecret (tool secret) with
      | .error e => .error (.derivationFailed e)
      | .ok pk => if pk ∈ valid then .ok secret else .error .notAuthorized

/-- One iteration of the collection loop body of `decrypt.py:run`: the
duplicate check first (state untouched on a hit); then the validation
pipeline, recording `declined` in the ledger on any content-dependent
failure and recording `accepted`, appending the secret and bumping the
counter on success. -/
def processCandidate (valid : List String) (tool : String → ToolResult)
    (st : QuorumState) (c : Candidate) : QuorumState × StepResult :=
  match lookupAttempt st.attemptedKeys c.path with
  | some prior => (st, .alreadyJudged prior)
  | none =>
    match evaluateCandidate valid tool c.content with
    | .error f =>
      ({ st with attemptedKeys := st.attemptedKeys ++ [(c.path, false)] }, .rejected f)
    | .ok secret =>
      (⟨st.attemptedKeys ++ [(c.path, true)],
        st.keySecrets ++ [secret],
        st.validKeyCount + 1⟩, .accepted secret)

/-- The collection loop of `decrypt.py:run` driven by a script of candidate
submissions: loop while `valid_key_count < required_key_count`, returning
the final state and whether the quorum was completed (`false` means the
script of submissions ran out while the loop still wanted more keys). -/
def collectKeys (valid : List String) (tool : String → ToolResult) (req : Nat) :
    QuorumState → List Candidate → QuorumState × Bool
  | st, [] => if req ≤ st.validKeyCount then (st, true) else (st, false)
  | st, c :: rest =>
    if req ≤ st.validKeyCount then (st, true)
    else collectKeys valid tool req (processCandidate valid tool st c).1 rest

/-! ## Recipient policy store (`decrypt.py:get_recipient_config`)

The loader scans the policy artifact with two concrete patterns: the
threshold field (the literal marker, optional blanks, a digit run) and the
shares block (the literal marker, blanks ending in a newline, then one or
more dash lines starting with the public-identity marker), then extracts
one key per line of the shares block.  The scanners below mirror those
patterns deterministically (the patterns involve no observable
backtracking: no blank character is a digit, a dash, or a letter).
-/

/-- Match of the threshold pattern anchored at the head of `cs`: the
literal field marker, optional blanks, then a nonempty digit run. -/
def matchThresholdAt (cs : List Char) : Option Nat :=
  if "threshold:".data.isPrefixOf cs then
    let rest := (cs.drop 10).dropWhile isSpaceCh
    let ds := rest.takeWhile Char.isDigit
    if ds.isEmpty then none else some (digitsToNat ds)
  else none

/-- Leftmost occurrence of the threshold pattern, as the loader's regex
search finds it. -/
def searchThreshold : List Char → Option Nat
  | [] => none
  | c :: rest =>
    match matchThresholdAt (c :: rest) with
    | some n => some n
    | none => searchThreshold rest

/-- Number of characters up to and including the last newline of the list,
if it has one: the blanks the shares pattern consumes before its capture
begins. -/
def lastNewlineCount : List Char → Option Nat
  | [] => none
  | c :: rest =>
    match lastNewlineCount rest with
    | some n => some (n + 1)
    | none => if c = '\n' then some 1 else none

/-- One iteration of the shares block's repeated line group: blanks, a
dash, blanks, the identity marker, the rest of the line, an optional
newline.  Returns the consumed characters and the remainder. -/
def oneShareItem (cs : List Char) : Option (List Char × List Char) :=
  let ws := cs.takeWhile isSpaceCh
  match cs.drop ws.length with
  | '-' :: r2 =>
    let ws2 := r2.takeWhile isSpaceCh
    let r3 := r2.drop ws2.length
    if "age1".data.isPrefixOf r3 then
      let r4 := r3.drop 4
      let ln := r4.takeWhile (· != '\n')
      match r4.drop ln.length with
      | '\n' :: r6 => some (ws ++ '-' :: (ws2 ++ "age1".data ++ ln ++ ['\n']), r6)
      | r5 => some (ws ++ '-' :: (ws2 ++ "age1".data ++ ln), r5)
    else none
  | _ => none

/-- Greedy repetition of the shares line group (fuel-bounded; each
iteration consumes at least one character, so fuel `length + 1` is
exhaustive). -/
def shareItemsAux : Nat → List Char → List Char
  | 0, _ => []
  | fuel + 1, cs =>
    match oneShareItem cs with
    | none => []
    | some (consumed, rest) => consumed ++ shareItemsAux fuel rest

/-- Match of the shares pattern anchored at the head of `cs`: the literal
marker, blanks containing a newline, then the captured group of one or
more identity lines. -/
def matchSharesAt (cs : List Char) : Option (List Char) :=
  if "shares:".data.isPrefixOf cs then
    let rest := cs.drop 7
    let ws := rest.takeWhile isSpaceCh
    match lastNewlineCount ws with
    | none => none
    | some n =>
      let body := rest.drop n
      let g := shareItemsAux (body.length + 1) body
      if g.isEmpty then none else some g
  else none

/-- Leftmost occurrence of the shares pattern, as the loader's regex
search finds it. -/
def searchShares : List Char → Option (List Char)
  | [] => none
  | c :: rest =>
    match matchSharesAt (c :: rest) with
    | some g => some g
    | none => searchShares rest

/-- Match of the per-line key pattern anchored at the head of the list: a
dash, blanks, then the identity marker followed by a nonempty run of
non-blank characters, capturing the identity token. -/
def matchShareKeyAt : List Char → Option (List Char)
  | '-' :: r =>
    let r2 := r.dropWhile isSpaceCh
    if "age1".data.isPrefixOf r2 then
      let tail := (r2.drop 4).takeWhile (fun c => !(isSpaceCh c))
      if tail.isEmpty then none else some ("age1".data ++ tail)
    else none
  | _ => none

/-- Leftmost per-line key match, as the loader's per-line regex search
finds it. -/
def searchShareKey : List Char → Option (List Char)
  | [] => none
  | c :: rest =>
    match matchShareKeyAt (c :: rest) with
    | some k => some k
    | none => searchShareKey rest

/-- Result record of `decrypt.py:get_recipient_config`: the parsed
threshold, the reported share total, and the parsed public keys. -/
structure RecipientConfig where
  threshold : Nat
  totalShares : Nat
  recipientPublicKeys : List String
deriving DecidableEq, Repr

/-- Embedding of `decrypt.py:get_recipient_config` on the policy file's
content: locate the threshold field, locate the shares block, extract one
key per captured line; each located failure raises the corresponding
message. -/
def getRecipientConfig (content : String) : Except String RecipientConfig :=
  match searchThreshold content.data with
  | none => .error "Unable to find threshold value in config file"
  | some t =>
    match searchShares content.data with
    | none => .error "Unable to find shares in config file"
    | some g =>
      let keys := ((splitLinesCL g).filterMap searchShareKey).map String.mk
      .ok ⟨t, keys.length, keys⟩

/-! ## Cipher gateway epilogues

`decrypt.py:save_decrypted_file` and `encrypt.py:encrypt_file` invoke the
external cipher tool and then inspect stderr and the exit code.  The
post-invocation handling is embedded as a function of the tool's
observable result and of whether the tool left a partially-written output
file on disk; the second component of the result is whether that output
file is still on disk after the handler finishes.
-/

/-- Failure kinds of a cipher invocation. -/
inductive CipherErr where
  | noMatchingIdentity
  | cipherToolError
deriving DecidableEq, Repr

/-- Post-invocation handling of `decrypt.py:save_decrypted_file`: the
no-identity-matched stderr signal deletes any written output and fails;
any other nonzero exit fails with the output left as the tool wrote it. -/
def saveDecryptedOutcome (stderr : String) (returncode : Int) (outputOnDisk : Bool) :
    Option CipherErr × Bool :=
  if containsSubstr stderr "no identity matched any of the recipients" then
    (some .noMatchingIdentity, false)
  else if returncode ≠ 0 then (some .cipherToolError, outputOnDisk)
  else (none, outputOnDisk)

/-- Post-invocation handling of `encrypt.py:encrypt_file`: a nonzero exit
fails with the output left as the tool wrote it. -/
def encryptFileOutcome (returncode : Int) (outputOnDisk : Bool) :
    Option CipherErr × Bool :=
  if returncode ≠ 0 then (some .cipherToolError, outputOnDisk)
  else (none, outputOnDisk)

/-! ## Output-path collision avoidance

Both scripts compute a deterministic dated output name, then bump a
numeric counter while a file of the candidate name exists.  The loop is
embedded with explicit fuel (each probe either returns or advances the
counter; a finite directory cannot defeat `length + 1` distinct probes
unless the naming function collides with itself).
-/

/-- Deterministic decrypt-side output name
(`decrypt.py:save_decrypted_file`). -/
def decryptedOutputName (base ts ext : String) : String :=
  "[SENSITIVE] " ++ base ++ " - Decrypted " ++ ts ++ ext

/-- Counter-suffixed decrypt-side output name
(`decrypt.py:save_decrypted_file`, collision branch). -/
def decryptedOutputNameC (base ts ext : String) (c : Nat) : String :=
  "[SENSITIVE] " ++ base ++ " - Decrypted " ++ ts ++ " (" ++ Nat.repr c ++ ")" ++ ext

/-- Deterministic encrypt-side output name (`encrypt.py:encrypt_file`). -/
def encryptedOutputName (stem ts sfx : String) : String :=
  stem ++ " - Encrypted " ++ ts ++ sfx ++ ".age"

/-- Counter-suffixed encrypt-side output name
(`encrypt.py:encrypt_file`, collision branch — note the source drops the
original suffix and adds the sensitivity marker here). -/
def encryptedOutputNameC (stem ts : String) (c : Nat) : String :=
  "[SENSITIVE] " ++ stem ++ " - Encrypted " ++ ts ++ " (" ++ Nat.repr c ++ ").age"

/-- Counter-probing loop of both scripts, fuel-bounded: starting at
counter `c`, return the first suffixed name not present in the
directory. -/
def resolveCollisionAux (existing : List String) (mk : Nat → String) :
    Nat → Nat → Option String
  | 0, _ => none
  | fuel + 1, c =>
    let cand := mk c
    if cand ∈ existing then resolveCollisionAux existing mk fuel (c + 1)
    else some cand

/-- Output-path choice of both scripts: take the deterministic name if it
is not taken, else probe counter-suffixed names from 1 upward. -/
def resolveCollision (existing : List String) (mk : Nat → String) (first : String) :
    Option String :=
  if first ∈ existing then resolveCollisionAux existing mk (existing.length + 1) 1
  else some first

/-! ## Interactive numeric input and session teardown

`encrypt.py:get_numeric_input` loops over console reads; a read may
deliver a line or raise a keyboard interrupt, which the source catches
together with value errors and treats as an invalid entry.  The loop is
embedded over a script of input events (`none` means the script ran out
while the prompt was still looping).  The `run` functions of both scripts
end in handler-plus-finally blocks embedded as action traces indexed by
the way the session body ended.
-/

/-- One console read during numeric input: a delivered line or a keyboard
interrupt raised mid-read. -/
inductive InputEvent where
  | line (s : String)
  | interrupt
deriving DecidableEq, Repr

/-- Embedding of `encrypt.py:get_numeric_input`: loop until a stripped
all-digit line within bounds arrives; interrupts are caught by the
source's handler and simply re-prompt. -/
def getNumericInput (minVal maxVal : Nat) : List InputEvent → Option Nat
  | [] => none
  | .interrupt :: rest => getNumericInput minVal maxVal rest
  | .line s :: rest =>
    let u := pyStrip s
    if isDigitStr u then
      let v := digitsToNat u.data
      if minVal ≤ v && v ≤ maxVal then some v
      else getNumericInput minVal maxVal rest
    else getNumericInput minVal maxVal rest

/-- The four ways a session body can end: normal completion, the script's
own error type, a keyboard interrupt, or any other exception. -/
inductive SessionOutcome where
  | ok
  | appError
  | interrupt
  | unexpectedError
deriving DecidableEq, Repr

/-- Externally visible actions of the handler-plus-finally epilogue of a
session. -/
inductive SessionAction where
  | reportError
  | reportCancelled
  | reportUnexpected
  | cleanupTempDir
  | pauseForExit
deriving DecidableEq, Repr

/-- Epilogue of `decrypt.py:run`: each handler reports, then the finally
block removes the temporary directory and pauses for a keypress. -/
def decryptRunEpilogue : SessionOutcome → List SessionAction
  | .ok => [.cleanupTempDir, .pauseForExit]
  | .appError => [.reportError, .cleanupTempDir, .pauseForExit]
  | .interrupt => [.reportCancelled, .cleanupTempDir, .pauseForExit]
  | .unexpectedError => [.reportUnexpected, .cleanupTempDir, .pauseForExit]

/-- Epilogue of `encrypt.py:run`: same handler shapes and the same
finally block. -/
def encryptRunEpilogue : SessionOutcome → List SessionAction
  | .ok => [.cleanupTempDir, .pauseForExit]
  | .appError => [.reportError, .cleanupTempDir, .pauseForExit]
  | .interrupt => [.reportCancelled, .cleanupTempDir, .pauseForExit]
  | .unexpectedError => [.reportUnexpected, .cleanupTempDir, .pauseForExit]

/-! ## Encrypt-side setup (`encrypt.py:set_up_paths_and_validation`)

The recipients-file section: glob the encrypted directory for policy
files; while none are found, write a blank placeholder policy INTO that
directory; only afterwards create the directory if absent; finally raise
if anything was missing.  File-system state is the directory's existence
and the policy files it holds; a write into a missing directory raises an
unhandled file-system error.
-/

/-- File-system state the encrypt-side setup reads and writes. -/
structure EncFsState where
  encryptedDirExists : Bool
  yamlFiles : List String
deriving DecidableEq, Repr

/-- Errors the setup can raise: the unhandled file-system error from
writing into a missing directory, or the script's own missing-files
error. -/
inductive EncSetupErr where
  | fsWriteError
  | encryptionError
deriving DecidableEq, Repr

/-- Tail of `encrypt.py:set_up_paths_and_validation` after the glob loop:
the too-many-files check, then directory creation if absent, then the
missing-files raise. -/
def encSetupAfterGlob (binMissing : List String) (fs : EncFsState) :
    EncFsState × Option EncSetupErr :=
  let missing :=
    if fs.yamlFiles.length > 1 then binMissing ++ ["Too many recipients yaml files"]
    else binMissing
  let fs2 := if fs.encryptedDirExists then fs else { fs with encryptedDirExists := true }
  if missing.isEmpty then (fs2, none) else (fs2, some .encryptionError)

/-- Recipients-file section of `encrypt.py:set_up_paths_and_validation`:
when the glob finds nothing, the blank placeholder policy is written into
the encrypted directory — before the later step that would create the
directory — so a missing directory makes the write raise with nothing
created. -/
def setUpPathsAndValidationEnc (binMissing : List String) (fs : EncFsState) :
    EncFsState × Option EncSetupErr :=
  if fs.yamlFiles.isEmpty then
    if fs.encryptedDirExists then
      encSetupAfterGlob binMissing { fs with yamlFiles := ["recipients.yaml"] }
    else (fs, some .fsWriteError)
  else encSetupAfterGlob binMissing fs

/-! ## Ledger lemmas -/

/-- A path with no ledger entry is absent from the ledger's key list. -/
theorem lookupAttempt_eq_none {l : List (String × Bool)} {q : String}
    (h : lookupAttempt l q = none) : q ∉ l.map Prod.fst := by
  induction l with
  | nil => simp
  | cons pb rest ih =>
    obtain ⟨p, b⟩ := pb
    simp only [lookupAttempt] at h
    split at h
    · exact absurd h (by simp)
    · rename_i hne
      simp only [List.map_cons, List.mem_cons]
      rintro (rfl | hmem)
      · exact hne rfl
      · exact ih h hmem

/-- Appending a fresh ledger entry makes that path resolve to the new
outcome. -/
theorem lookupAttempt_append {l : List (String × Bool)} {q : String} {b : Bool}
    (h : lookupAttempt l q = none) : lookupAttempt (l ++ [(q, b)]) q = some b := by
  induction l with
  | nil => simp [lookupAttempt]
  | cons pb rest ih =>
    obtain ⟨p, b2⟩ := pb
    simp only [lookupAttempt] at h
    split at h
    · exact absurd h (by simp)
    · rename_i hne
      simp only [List.cons_append, lookupAttempt, if_neg hne]
      exact ih h

/-! ## Loop invariant of the quorum collector -/

/-- Invariant of the collection loop: the collected-secrets length tracks
`valid_key_count`, the ledger holds exactly that many accepted entries,
and ledger paths are pairwise distinct. -/
def QuorumInv (st : QuorumState) : Prop :=
  st.keySecrets.length = st.validKeyCount ∧
  (st.attemptedKeys.filter (fun e => e.2)).length = st.validKeyCount ∧
  (st.attemptedKeys.map Prod.fst).Nodup

/-- One loop-body iteration preserves the invariant and changes the
accepted count by zero or one. -/
theorem processCandidate_preserves (valid : List String) (tool : String → ToolResult)
    (st : QuorumState) (c : Candidate) (h : QuorumInv st) :
    QuorumInv (processCandidate valid tool st c).1 ∧
      ((processCandidate valid tool st c).1.validKeyCount = st.validKeyCount ∨
       (processCandidate valid tool st c).1.validKeyCount = st.validKeyCount + 1) := by
  obtain ⟨h1, h2, h3⟩ := h
  unfold processCandidate
  cases hl : lookupAttempt st.attemptedKeys c.path with
  | some prior => exact ⟨⟨h1, h2, h3⟩, Or.inl rfl⟩
  | none =>
    have hnot : c.path ∉ st.attemptedKeys.map Prod.fst := lookupAttempt_eq_none hl
    cases he : evaluateCandidate valid tool c.content with
    | error f =>
      refine ⟨⟨h1, ?_, ?_⟩, Or.inl rfl⟩
      · simp [List.filter_append, h2]
      · simp [List.map_append, List.nodup_append, h3, hnot]
    | ok secret =>
      refine ⟨⟨?_, ?_, ?_⟩, Or.inr rfl⟩
      · simp [h1]
      · simp [List.filter_append, h2]
      · simp [List.map_append, List.nodup_append, h3, hnot]

/-- Main loop lemma: starting below the threshold with the invariant, the
loop preserves the invariant, never exceeds the threshold, and reports
completion exactly when the accepted count equals the threshold. -/
theorem collectKeys_spec (valid : List String) (tool : String → ToolResult) (req : Nat) :
    ∀ (cs : List Candidate) (st : QuorumState), QuorumInv st → st.validKeyCount ≤ req →
      QuorumInv (collectKeys valid tool req st cs).1 ∧
      (collectKeys valid tool req st cs).1.validKeyCount ≤ req ∧
      ((collectKeys valid tool req st cs).2 = true ↔
        (collectKeys valid tool req st cs).1.validKeyCount = req) := by
  intro cs
  induction cs with
  | nil =>
    intro st hinv hle
    simp only [collectKeys]
    by_cases h : req ≤ st.validKeyCount
    · simp only [if_pos h]
      exact ⟨hinv, hle, by simp; omega⟩
    · simp only [if_neg h]
      refine ⟨hinv, hle, ?_⟩
      simp only [Bool.false_eq_true, false_iff]
      omega
  | cons c rest ih =>
    intro st hinv hle
    simp only [collectKeys]
    by_cases h : req ≤ st.validKeyCount
    · simp only [if_pos h]
      exact ⟨hinv, hle, by simp; omega⟩
    · simp only [if_neg h]
      have hp := processCandidate_preserves valid tool st c hinv
      have hle2 : (processCandidate valid tool st c).1.validKeyCount ≤ req := by
        rcases hp.2 with h1 | h1 <;> omega
      exact ih _ hp.1 hle2

/-! ## Claim theorems: quorum collection -/

/-- C1: for every threshold `req ≥ 1`, the collection loop completes
exactly when the collected-secrets list reaches length `req`; on
completion the ledger holds exactly `req` accepted entries over pairwise
distinct paths; a run with no accepted candidate never completes; and the
remaining count `req - len(collected)` is nonnegative after every prefix
of the submissions. -/
theorem quorum_collection_complete_iff (valid : List String) (tool : String → ToolResult)
    (req : Nat) (cs : List Candidate) (hreq : 1 ≤ req) :
    ((collectKeys valid tool req initialQuorumState cs).2 = true ↔
      (collectKeys valid tool req initialQuorumState cs).1.keySecrets.length = req) ∧
    ((collectKeys valid tool req initialQuorumState cs).2 = true →
      ((collectKeys valid tool req initialQuorumState cs).1.attemptedKeys.filter
          (fun e => e.2)).length = req ∧
      ((collectKeys valid tool req initialQuorumState cs).1.attemptedKeys.map
          Prod.fst).Nodup) ∧
    ((collectKeys valid tool req initialQuorumState cs).1.keySecrets = [] →
      (collectKeys valid tool req initialQuorumState cs).2 = false) ∧
    (∀ pre suf, cs = pre ++ suf →
      (0 : Int) ≤ (req : Int) -
        ((collectKeys valid tool req initialQuorumState pre).1.keySecrets.length : Int)) := by
  have hinit : QuorumInv initialQuorumState := by
    refine ⟨rfl, rfl, ?_⟩
    simp [initialQuorumState]
  obtain ⟨⟨hs, hf, hn⟩, hle, hiff⟩ :=
    collectKeys_spec valid tool req cs initialQuorumState hinit (Nat.zero_le req)
  refine ⟨?_, ?_, ?_, ?_⟩
  · constructor
    · intro h
      have := hiff.mp h
      omega
    · intro h
      exact hiff.mpr (by omega)
  · intro h
    have := hiff.mp h
    exact ⟨by omega, hn⟩
  · intro h
    cases hb : (collectKeys valid tool req initialQuorumState cs).2 with
    | false => rfl
    | true =>
      exfalso
      have hc := hiff.mp hb
      have hlen : (collectKeys valid tool req initialQuorumState cs).1.keySecrets.length = 0 := by
        rw [h]
        rfl
      omega
  · intro pre suf hcat
    obtain ⟨⟨hs2, _, _⟩, hle2, _⟩ :=
      collectKeys_spec valid tool req pre initialQuorumState hinit (Nat.zero_le req)
    omega

/-- Witness for C1: a threshold-1 session completes after one valid,
authorized candidate, with the collected list at length exactly 1. -/
theorem quorum_collection_complete_iff_witness :
    1 ≤ 1 ∧
    ((collectKeys ["age1k"] (fun _ => ⟨"age1k", "", 0⟩) 1 initialQuorumState
        [⟨"k1", some "AGE-SECRET-KEY-AB"⟩]).2 = true ↔
      (collectKeys ["age1k"] (fun _ => ⟨"age1k", "", 0⟩) 1 initialQuorumState
        [⟨"k1", some "AGE-SECRET-KEY-AB"⟩]).1.keySecrets.length = 1) :=
  ⟨by omega,
    (quorum_collection_complete_iff ["age1k"] (fun _ => ⟨"age1k", "", 0⟩) 1
      [⟨"k1", some "AGE-SECRET-KEY-AB"⟩] (by omega)).1⟩

/-- C2: a fresh candidate whose content yields a secret, whose secret
derives to a well-shaped public identity, and whose identity is absent
from the authorized list, is rejected at the membership step: the ledger
gains a declined entry for that path and the collected secrets are
unchanged. -/
theorem membership_rejection (valid : List String) (tool : String → ToolResult)
    (st : QuorumState) (c : Candidate) (content secret pk : String)
    (hfresh : lookupAttempt st.attemptedKeys c.path = none)
    (hcontent : c.content = some content)
    (hsecret : getSecretKeyFromContent content = some secret)
    (hderive : getPublicKeyFromSecret (tool secret) = .ok pk)
    (hmem : pk ∉ valid) :
    processCandidate valid tool st c =
      ({ st with attemptedKeys := st.attemptedKeys ++ [(c.path, false)] },
        .rejected .notAuthorized) ∧
    (processCandidate valid tool st c).1.keySecrets = st.keySecrets := by
  have he : evaluateCandidate valid tool c.content = .error .notAuthorized := by
    rw [hcontent]
    simp only [evaluateCandidate, hsecret, hderive, if_neg hmem]
  constructor
  · simp only [processCandidate, hfresh, he]
  · simp only [processCandidate, hfresh, he]

/-- Witness for C2: a well-formed secret deriving to `age1k` against an
authorized list that does not contain it leaves the collected list
empty. -/
theorem membership_rejection_witness :
    ("age1k" : String) ∉ (["age1zz"] : List String) ∧
    (processCandidate ["age1zz"] (fun _ => ⟨"age1k", "", 0⟩) initialQuorumState
        ⟨"k1", some "AGE-SECRET-KEY-AB"⟩).1.keySecrets = ([] : List String) := by
  refine ⟨by decide, ?_⟩
  have h := membership_rejection ["age1zz"] (fun _ => ⟨"age1k", "", 0⟩) initialQuorumState
      ⟨"k1", some "AGE-SECRET-KEY-AB"⟩ "AGE-SECRET-KEY-AB" "AGE-SECRET-KEY-AB" "age1k"
      (by decide) rfl (by decide) rfl (by decide)
  exact h.2

/-- C3: resubmitting a path already present in the attempt ledger yields
the already-judged outcome carrying the prior verdict, with the state —
ledger, collected secrets, and count — completely unchanged, for every
possible content of the resubmitted candidate. -/
theorem already_judged_no_mutation (valid : List String) (tool : String → ToolResult)
    (st : QuorumState) (c : Candidate) (prior : Bool)
    (hjudged : lookupAttempt st.attemptedKeys c.path = some prior) :
    processCandidate valid tool st c = (st, .alreadyJudged prior) := by
  simp only [processCandidate, hjudged]

/-- Witness for C3: resubmitting a declined path is rejected with the
prior verdict and no state change. -/
theorem already_judged_no_mutation_witness :
    lookupAttempt [("k1", false)] "k1" = some false ∧
    processCandidate [] (fun _ => ⟨"", "", 0⟩) ⟨[("k1", false)], [], 0⟩ ⟨"k1", some "x"⟩ =
      (⟨[("k1", false)], [], 0⟩, .alreadyJudged false) :=
  ⟨by decide,
    already_judged_no_mutation [] (fun _ => ⟨"", "", 0⟩) ⟨[("k1", false)], [], 0⟩
      ⟨"k1", some "x"⟩ false (by decide)⟩

/-- C7 counterexample: a candidate whose file read fails IS recorded in
the attempt ledger as declined (the code's except-branch for
`get_secret_key_from_file` covers read errors and format errors alike),
and resubmitting the same path then trips the duplicate check. -/
theorem read_error_updates_ledger_counterexample :
    processCandidate [] (fun _ => ⟨"", "", 0⟩) initialQuorumState ⟨"key1.yaml", none⟩ =
      (⟨[("key1.yaml", false)], [], 0⟩, .rejected .readFailed) ∧
    (processCandidate [] (fun _ => ⟨"", "", 0⟩)
        (⟨[("key1.yaml", false)], [], 0⟩ : QuorumState) ⟨"key1.yaml", some "x"⟩).2 =
      .alreadyJudged false := by
  exact ⟨by decide, by decide⟩

/-- C7 amended: an I/O-dependent read failure behaves like the
content-dependent failures — it records the path as declined in the
ledger (leaving the collected secrets unchanged), and a resubmission of
that path is then caught by the duplicate check. -/
theorem read_error_records_declined (valid : List String) (tool : String → ToolResult)
    (st : QuorumState) (path : String)
    (hfresh : lookupAttempt st.attemptedKeys path = none) :
    processCandidate valid tool st ⟨path, none⟩ =
      ({ st with attemptedKeys := st.attemptedKeys ++ [(path, false)] },
        .rejected .readFailed) ∧
    lookupAttempt (st.attemptedKeys ++ [(path, false)]) path = some false := by
  refine ⟨?_, lookupAttempt_append hfresh⟩
  simp only [processCandidate, hfresh, evaluateCandidate]

/-- Witness for the amended C7: a read failure on a fresh path appends a
declined ledger entry. -/
theorem read_error_records_declined_witness :
    lookupAttempt ([] : List (String × Bool)) "key2.yaml" = none ∧
    processCandidate [] (fun _ => ⟨"", "", 0⟩) initialQuorumState ⟨"key2.yaml", none⟩ =
      (⟨[("key2.yaml", false)], [], 0⟩, .rejected .readFailed) := by
  refine ⟨by decide, ?_⟩
  have h := read_error_records_declined [] (fun _ => ⟨"", "", 0⟩) initialQuorumState
      "key2.yaml" (by decide)
  exact h.1

/-! ## Claim theorems: policy loading -/

/-- C4 counterexample: a policy file declaring threshold 0 is accepted by
the loader — the digit-run pattern matches `0` and no positivity check is
performed — contradicting the claim that a zero threshold raises a
malformed-policy error. -/
theorem policy_zero_threshold_accepted_counterexample :
    getRecipientConfig "threshold: 0\nshares:\n  - age1abc\n" =
      .ok ⟨0, 1, ["age1abc"]⟩ := rfl

/-- C4 amended: the loader fails exactly when the threshold field or the
shares block cannot be located.  A negative threshold never matches the
digit pattern, hence fails; a threshold of `0` parses and is accepted
without any positivity or non-emptiness check. -/
theorem policy_load_failure_characterization :
    (∀ content : String, (getRecipientConfig content).isOk =
        ((searchThreshold content.data).isSome && (searchShares content.data).isSome)) ∧
    getRecipientConfig "threshold: -1\nshares:\n  - age1abc\n" =
      .error "Unable to find threshold value in config file" ∧
    (getRecipientConfig "threshold: 0\nshares:\n  - age1abc\n").isOk = true := by
  refine ⟨?_, rfl, rfl⟩
  intro content
  cases h1 : searchThreshold content.data with
  | none => simp [getRecipientConfig, h1, Except.isOk, Except.toBool]
  | some t =>
    cases h2 : searchShares content.data with
    | none => simp [getRecipientConfig, h1, h2, Except.isOk, Except.toBool]
    | some g => simp [getRecipientConfig, h1, h2, Except.isOk, Except.toBool]

/-- C5 counterexample: the loader returns a policy whose threshold (2)
exceeds the number of parsed identities (1); no invariant check relates
the two. -/
theorem policy_loader_accepts_excess_threshold_counterexample :
    getRecipientConfig "threshold: 2\nshares:\n  - age1abc\n" = .ok ⟨2, 1, ["age1abc"]⟩ ∧
    ¬ ((2 : Nat) ≤ (["age1abc"] : List String).length) := ⟨rfl, by decide⟩

/-- C5 amended: every policy the loader returns reports a share total
equal to the length of its parsed identity list, but the loader enforces
no relation between the threshold and that length (and the list may even
be empty). -/
theorem policy_loader_total_shares_eq (content : String) (cfg : RecipientConfig)
    (h : getRecipientConfig content = .ok cfg) :
    cfg.totalShares = cfg.recipientPublicKeys.length := by
  unfold getRecipientConfig at h
  split at h
  · exact absurd h (by simp)
  · split at h
    · exact absurd h (by simp)
    · injection h with h3
      rw [← h3]

/-- Witness for the amended C5: a well-formed policy with one identity
loads, and its share total equals its identity count. -/
theorem policy_loader_total_shares_eq_witness :
    getRecipientConfig "threshold: 1\nshares:\n  - age1bb\n" = .ok ⟨1, 1, ["age1bb"]⟩ ∧
    (⟨1, 1, ["age1bb"]⟩ : RecipientConfig).totalShares =
      (⟨1, 1, ["age1bb"]⟩ : RecipientConfig).recipientPublicKeys.length :=
  ⟨rfl, policy_loader_total_shares_eq "threshold: 1\nshares:\n  - age1bb\n"
    ⟨1, 1, ["age1bb"]⟩ rfl⟩

/-! ## Claim theorems: cipher gateway, teardown, collision avoidance, setup -/

/-- C6 counterexample: a decryption failure without the no-identity
signal, and any encryption failure, raise while the partially-written
output file is still on disk — contradicting the claim that every failed
cipher invocation deletes leftover output before raising. -/
theorem cipher_failure_leaves_output_counterexample :
    saveDecryptedOutcome "age: error corrupted header" 1 true =
      (some .cipherToolError, true) ∧
    encryptFileOutcome 1 true = (some .cipherToolError, true) := ⟨rfl, rfl⟩

/-- C6 amended: only the no-identity-matched decryption failure deletes
leftover output before raising; after any other outcome, decrypt-side or
encrypt-side, the output file is exactly as the tool left it. -/
theorem cipher_output_deletion_characterization (stderr : String) (rc : Int) (out : Bool) :
    (saveDecryptedOutcome stderr rc out).2 =
      (if containsSubstr stderr "no identity matched any of the recipients" then false
       else out) ∧
    (encryptFileOutcome rc out).2 = out ∧
    (containsSubstr stderr "no identity matched any of the recipients" = true →
      saveDecryptedOutcome stderr rc out = (some .noMatchingIdentity, false)) := by
  refine ⟨?_, ?_, ?_⟩
  · by_cases h : containsSubstr stderr "no identity matched any of the recipients" = true
    · simp [saveDecryptedOutcome, h]
    · by_cases h2 : rc = 0 <;> simp [saveDecryptedOutcome, h, h2]
  · by_cases h2 : rc = 0 <;> simp [encryptFileOutcome, h2]
  · intro h
    simp [saveDecryptedOutcome, h]

/-- Witness for the amended C6: the no-identity signal triggers deletion,
and a plain tool failure does not. -/
theorem cipher_output_deletion_characterization_witness :
    containsSubstr "age: no identity matched any of the recipients"
      "no identity matched any of the recipients" = true ∧
    saveDecryptedOutcome "age: no identity matched any of the recipients" 1 true =
      (some .noMatchingIdentity, false) := by
  refine ⟨rfl, ?_⟩
  exact (cipher_output_deletion_characterization
    "age: no identity matched any of the recipients" 1 true).2.2 rfl

/-- C8 counterexample: a keyboard interrupt during numeric input does not
end the session — the prompt simply repeats (the interrupt alone leaves
the loop waiting) and a later valid line is accepted as if nothing
happened, so no teardown follows the interrupt. -/
theorem interrupt_during_numeric_input_counterexample :
    getNumericInput 1 100 [.interrupt] = none ∧
    getNumericInput 1 100 [.interrupt, .line "5"] = some 5 := ⟨rfl, rfl⟩

/-- C8 amended: every terminal outcome of a session — normal, application
error, interrupt, unexpected error — runs temporary-directory removal
immediately before the exit pause, in both scripts; but an interrupt
during encrypt-side numeric input is caught by that prompt's handler and
re-prompts instead of ending the session. -/
theorem session_teardown_before_pause (o : SessionOutcome) :
    (∃ pre, decryptRunEpilogue o = pre ++ [.cleanupTempDir, .pauseForExit]) ∧
    (∃ pre, encryptRunEpilogue o = pre ++ [.cleanupTempDir, .pauseForExit]) ∧
    getNumericInput 1 100 [.interrupt, .line "5"] = some 5 := by
  cases o with
  | ok => exact ⟨⟨[], rfl⟩, ⟨[], rfl⟩, rfl⟩
  | appError => exact ⟨⟨[.reportError], rfl⟩, ⟨[.reportError], rfl⟩, rfl⟩
  | interrupt => exact ⟨⟨[.reportCancelled], rfl⟩, ⟨[.reportCancelled], rfl⟩, rfl⟩
  | unexpectedError => exact ⟨⟨[.reportUnexpected], rfl⟩, ⟨[.reportUnexpected], rfl⟩, rfl⟩

/-- Any name the counter-probing loop returns was probed and found
absent, and carries a counter at least the starting one. -/
theorem resolveCollisionAux_fresh (existing : List String) (mk : Nat → String) :
    ∀ (fuel c0 : Nat) (p : String), resolveCollisionAux existing mk fuel c0 = some p →
      p ∉ existing ∧ ∃ c, c0 ≤ c ∧ p = mk c := by
  intro fuel
  induction fuel with
  | zero => intro c0 p h; exact absurd h (by simp [resolveCollisionAux])
  | succ n ih =>
    intro c0 p h
    simp only [resolveCollisionAux] at h
    split at h
    · obtain ⟨h1, c, hc, rfl⟩ := ih (c0 + 1) p h
      exact ⟨h1, c, by omega, rfl⟩
    · rename_i hmem
      injection h with h2
      subst h2
      exact ⟨hmem, c0, le_refl c0, rfl⟩

/-- Any name the output-path choice returns is not a pre-existing file,
and is counter-suffixed whenever the deterministic name was taken. -/
theorem resolveCollision_fresh (existing : List String) (mk : Nat → String)
    (first p : String) (h : resolveCollision existing mk first = some p) :
    p ∉ existing ∧ (first ∈ existing → ∃ c, 1 ≤ c ∧ p = mk c) := by
  unfold resolveCollision at h
  by_cases hf : first ∈ existing
  · rw [if_pos hf] at h
    obtain ⟨h1, c, hc, rfl⟩ :=
      resolveCollisionAux_fresh existing mk (existing.length + 1) 1 p h
    exact ⟨h1, fun _ => ⟨c, hc, rfl⟩⟩
  · rw [if_neg hf] at h
    injection h with h2
    subst h2
    exact ⟨hf, fun contra => absurd contra hf⟩

/-- C9: for both scripts' naming schemes, the chosen output path never
coincides with a pre-existing file, and whenever the deterministic dated
name already exists the chosen path carries a numeric suffix (with a
counter of at least 1) that was absent at choice time. -/
theorem output_collision_avoidance (existing : List String)
    (base ts ext stem sfx p q : String) :
    (resolveCollision existing (decryptedOutputNameC base ts ext)
        (decryptedOutputName base ts ext) = some p →
      p ∉ existing ∧
      (decryptedOutputName base ts ext ∈ existing →
        ∃ c, 1 ≤ c ∧ p = decryptedOutputNameC base ts ext c)) ∧
    (resolveCollision existing (encryptedOutputNameC stem ts)
        (encryptedOutputName stem ts sfx) = some q →
      q ∉ existing ∧
      (encryptedOutputName stem ts sfx ∈ existing →
        ∃ c, 1 ≤ c ∧ q = encryptedOutputNameC stem ts c)) :=
  ⟨fun h => resolveCollision_fresh existing (decryptedOutputNameC base ts ext)
      (decryptedOutputName base ts ext) p h,
   fun h => resolveCollision_fresh existing (encryptedOutputNameC stem ts)
      (encryptedOutputName stem ts sfx) q h⟩

/-- Witness for C9: with the dated decrypt name already on disk, the
chosen path is the counter-1 suffixed name, which is fresh. -/
theorem output_collision_avoidance_witness :
    resolveCollision [decryptedOutputName "doc" "2026-10-12" ".txt"]
        (decryptedOutputNameC "doc" "2026-10-12" ".txt")
        (decryptedOutputName "doc" "2026-10-12" ".txt") =
      some (decryptedOutputNameC "doc" "2026-10-12" ".txt" 1) ∧
    decryptedOutputNameC "doc" "2026-10-12" ".txt" 1 ∉
      [decryptedOutputName "doc" "2026-10-12" ".txt"] := by
  have h : resolveCollision [decryptedOutputName "doc" "2026-10-12" ".txt"]
      (decryptedOutputNameC "doc" "2026-10-12" ".txt")
      (decryptedOutputName "doc" "2026-10-12" ".txt") =
      some (decryptedOutputNameC "doc" "2026-10-12" ".txt" 1) := by decide
  exact ⟨h, ((output_collision_avoidance
    [decryptedOutputName "doc" "2026-10-12" ".txt"]
    "doc" "2026-10-12" ".txt" "s" ".t"
    (decryptedOutputNameC "doc" "2026-10-12" ".txt" 1) "").1 h).1⟩

/-- C10: when the encrypted directory is absent (so the policy glob finds
nothing), the encrypt-side setup fails with the unhandled file-system
error from writing the blank placeholder policy, and neither the
directory nor the placeholder policy is created. -/
theorem blank_policy_write_precedes_mkdir (binMissing : List String) (fs : EncFsState)
    (hdir : fs.encryptedDirExists = false) (hyaml : fs.yamlFiles = []) :
    setUpPathsAndValidationEnc binMissing fs = (fs, some .fsWriteError) ∧
    (setUpPathsAndValidationEnc binMissing fs).1.encryptedDirExists = false ∧
    (setUpPathsAndValidationEnc binMissing fs).1.yamlFiles = [] := by
  have h : setUpPathsAndValidationEnc binMissing fs = (fs, some .fsWriteError) := by
    simp [setUpPathsAndValidationEnc, hyaml, hdir]
  refine ⟨h, ?_, ?_⟩
  · rw [h]
    exact hdir
  · rw [h]
    exact hyaml

/-- Witness for C10: an absent encrypted directory with no policy files
makes setup raise the file-system error with nothing created. -/
theorem blank_policy_write_precedes_mkdir_witness :
    (⟨false, []⟩ : EncFsState).encryptedDirExists = false ∧
    setUpPathsAndValidationEnc [] ⟨false, []⟩ = (⟨false, []⟩, some .fsWriteError) :=
  ⟨rfl, (blank_policy_write_precedes_mkdir [] ⟨false, []⟩ rfl rfl).1⟩

end DigitalLegacy
